import Mathlib

/-!
Verification of the Biochemistry-AI-Tutor core against its specification.

The Python sources (`backend/concept_check.py`, `backend/question_loader.py`,
`backend/socratic_engine.py`) are shallowly embedded below.  Text is modelled
as `List Char`; the ASCII character classes used by the sources' regular
expressions (`\d`, `[a-zA-Z]`, `[a-z]`, `\s`, `\w`) are modelled by the
corresponding ASCII predicates on `Char`.  File contents (the question
document and the per-module JSON concept specification) are inputs read by
the program; they enter the embedding as explicit parameters.  Python's
`random.choice` is modelled by an explicit chooser function `pick`; theorems
that depend on which element is chosen assume only `pick l ∈ l`.
-/

namespace Tutor

/-- Student-visible text, as the Python `str` of the sources (one entry per
character). -/
abbrev Text := List Char

/-- Text literal helper: the character list of a Lean string literal. -/
def tx (s : String) : Text := s.data

/-- The ASCII apostrophe character (used inside several message strings of
the sources). -/
def apos : Char := Char.ofNat 39

/-- Python whitespace (`\s`, `str.strip`) restricted to ASCII:
space, tab, newline, carriage return, vertical tab, form feed. -/
def isPySpace (c : Char) : Bool :=
  c == ' ' || c == '\t' || c == '\n' || c == '\r' || c == '\x0b' || c == '\x0c'

/-- `str.lower` (ASCII letters only, as all data handled by the tutor is
ASCII in the relevant positions). -/
def lowerText (s : Text) : Text := s.map Char.toLower

/-- Strip the characters satisfying `p` from both ends of `l`
(Python `str.strip(chars)`). -/
def stripChars (p : Char → Bool) (l : Text) : Text :=
  ((l.dropWhile p).reverse.dropWhile p).reverse

/-- Python `str.strip()` (no argument): strip whitespace from both ends. -/
def pyStrip (l : Text) : Text := stripChars isPySpace l

/-- Python substring test `p in s`. -/
def inStr (p s : Text) : Bool := decide (p <:+: s)

/-- Maximal runs of characters satisfying `p`, fuel-driven scanner.
`runsOfAux p fuel l` with `l.length ≤ fuel` models `re.findall` of the
character class `p` iterated with `+`. -/
def runsOfAux (p : Char → Bool) : Nat → List Char → List (List Char)
  | 0, _ => []
  | _ + 1, [] => []
  | fuel + 1, c :: rest =>
    if p c then (c :: rest.takeWhile p) :: runsOfAux p fuel (rest.dropWhile p)
    else runsOfAux p fuel rest

/-- `re.findall(r"<p>+", l)`: the maximal runs of `p`-characters of `l`. -/
def runsOf (p : Char → Bool) (l : Text) : List Text := runsOfAux p l.length l

/-- Fuel-driven scanner behind `extractNums`; consumes at least one character
per step, so `fuel = l.length` always suffices. -/
def extractNumsAux : Nat → Text → List Text
  | 0, _ => []
  | _ + 1, [] => []
  | fuel + 1, c :: rest =>
    if c.isDigit then
      let run := List.takeWhile Char.isDigit (c :: rest)
      let rest1 := List.dropWhile Char.isDigit (c :: rest)
      match rest1 with
      | '.' :: r2 =>
        let frac := List.takeWhile Char.isDigit r2
        if frac.isEmpty then run :: extractNumsAux fuel rest1
        else (run ++ '.' :: frac) :: extractNumsAux fuel (List.dropWhile Char.isDigit r2)
      | _ => run :: extractNumsAux fuel rest1
    else extractNumsAux fuel rest

/-- `re.findall(r"\d+(?:\.\d+)?", s)`: the decimal numbers occurring in `s`,
leftmost non-overlapping (concept_check.py line 23). -/
def extractNums (s : Text) : List Text := extractNumsAux s.length s

/-- Fuel-driven scanner behind `normalize`: replace each maximal whitespace
run by a single space (`re.sub(r"\s+", " ", ·)`). -/
def collapseWsAux : Nat → Text → Text
  | 0, _ => []
  | _ + 1, [] => []
  | fuel + 1, c :: rest =>
    if isPySpace c then ' ' :: collapseWsAux fuel (rest.dropWhile isPySpace)
    else c :: collapseWsAux fuel rest

/-- `normalize` of concept_check.py: lower-case, strip, collapse internal
whitespace runs to single spaces. -/
def normalize (s : Text) : Text :=
  collapseWsAux (pyStrip (lowerText s)).length (pyStrip (lowerText s))

/-- The curated synonym table `BIO_CONCEPTS` of backend/biochem_concepts.py:
domain → concept key → phrase variants, as an association list in source
order. -/
def BIO_CONCEPTS : List (Text × List (Text × List Text)) := [
  (tx "cancer", [
    (tx "uncontrolled proliferation", [
      tx "uncontrolled cell proliferation",
      tx "uncontrolled proliferation",
      tx "uncontrolled growth",
      tx "unchecked cell division",
      tx "rapid cell division",
      tx "rapid proliferation",
      tx "cells divide without stopping",
      tx "cells divide uncontrollably"]),
    (tx "regulation breakdown", [
      tx "loss of cell cycle control",
      tx "loss of growth regulation",
      tx "growth regulation is lost",
      tx "improper regulation of the cell cycle",
      tx "cell cycle checkpoints fail",
      tx "cell cycle control is disrupted",
      tx "regulatory checkpoints are bypassed",
      tx "breakdown in regulation",
      tx "loss of proper regulation"]),
    (tx "genetic mutations", [
      tx "genetic mutations",
      tx "dna mutations",
      tx "changes in dna",
      tx "genomic changes",
      tx "mutations in key genes",
      tx "oncogene activation",
      tx "tumor suppressor loss",
      tx "mutation of tumor suppressor genes"]),
    (tx "clonal expansion", [
      tx "clonal expansion",
      tx "clonal population",
      tx "clonal growth",
      tx "monoclonal colonies",
      tx "monoclonal population",
      tx "expansion of a single mutated cell",
      tx "clone of cells derived from one cell",
      tx "single cell gives rise to many"]),
    (tx "tumor formation", [
      tx "formation of tumors",
      tx "tumor formation",
      tx "forms a tumor mass",
      tx "forms tumors",
      tx "neoplasm formation",
      tx "mass of cells forms",
      tx "cell mass",
      tx "tumor or cell mass",
      tx "tumor development"]),
    (tx "histological classification", [
      tx "histological classification",
      tx "histology",
      tx "classified by histology",
      tx "microscopic appearance",
      tx "tissue microscopy",
      tx "pathology under the microscope"]),
    (tx "benign", [
      tx "benign",
      tx "noninvasive",
      tx "does not invade",
      tx "localized growth",
      tx "not invasive"]),
    (tx "malignant", [
      tx "malignant",
      tx "invasive",
      tx "invades",
      tx "can invade surrounding tissue",
      tx "can spread"]),
    (tx "tissue origin", [
      tx "tissue origin",
      tx "tissue of origin",
      tx "cell type of origin",
      tx "where it started",
      tx "what tissue it comes from",
      tx "originating tissue"]),
    (tx "carcinomas", [
      tx "carcinoma",
      tx "carcinomas",
      tx "epithelial cancer",
      tx "epithelium",
      tx "from epithelial tissue",
      tx "surface lining tissue"]),
    (tx "sarcomas", [
      tx "sarcoma",
      tx "sarcomas",
      tx "connective tissue cancer",
      tx "mesenchymal",
      tx "bone cancer",
      tx "cartilage cancer",
      tx "muscle cancer",
      tx "from connective tissue"]),
    (tx "clonal origin", [
      tx "clonal origin",
      tx "single cell origin",
      tx "arise from a single cell",
      tx "progenitor cell",
      tx "one cell gives rise",
      tx "monoclonal origin"]),
    (tx "progressive changes", [
      tx "progressive changes",
      tx "accumulation of changes",
      tx "stepwise changes",
      tx "multiple changes over time",
      tx "progression of changes"]),
    (tx "morphological progression", [
      tx "morphological progression",
      tx "morphology changes",
      tx "morphologically",
      tx "appearance changes",
      tx "histologic progression",
      tx "changes in tumor appearance",
      tx "increasingly abnormal appearance"]),
    (tx "age correlation", [
      tx "age correlation",
      tx "increases with age",
      tx "more common with age",
      tx "risk increases with age",
      tx "age-related increase",
      tx "older individuals have higher risk"])]),
  (tx "amino_acids", [
    (tx "carboxyl pKa 1.8", [
      tx "carboxyl 1.8",
      tx "carboxyl group 1.8",
      tx "alpha carboxyl 1.8",
      tx "alpha carboxyl group 1.8",
      tx "alpha carboxyl pKa 1.8",
      tx "c terminus carboxyl 1.8",
      tx "c terminal carboxyl 1.8",
      tx "carboxyl terminus 1.8",
      tx "carboxyl is 1.8",
      tx "carboxylic acid 1.8",
      tx "carboxylic acid group 1.8",
      tx "cooh 1.8",
      tx "cooh pka 1.8",
      tx "cooh is 1.8"]),
    (tx "amino pKa 9.2", [
      tx "amino 9.2",
      tx "amino group 9.2",
      tx "alpha amino 9.2",
      tx "alpha amino group 9.2",
      tx "alpha amino pka 9.2",
      tx "ammonium 9.2",
      tx "ammonium group 9.2",
      tx "n terminus amino 9.2",
      tx "n terminal amino 9.2",
      tx "amino terminus 9.2",
      tx "amino is 9.2",
      tx "nh3 9.2",
      tx "nh3+ 9.2",
      tx "nh3 pka 9.2",
      tx "nh3 is 9.2",
      tx "nh3+ pka 9.2",
      tx "nh3+ is 9.2"])]),
  (tx "acid_base", [
    (tx "net charge equals 0", [
      tx "net charge is 0",
      tx "overall net charge is 0",
      tx "overall charge is 0",
      tx "net charge 0",
      tx "neutral net charge",
      tx "overall charge is neutral",
      tx "net charge is neutral",
      tx "no net charge",
      tx "uncharged overall",
      tx "overall neutral",
      tx "zwitterion (net 0)"])]),
  (tx "metabolism", [
    (tx "glycolysis", [tx "embden meyerhof", tx "glucose breakdown", tx "pyruvate formation"]),
    (tx "tca cycle", [tx "citric acid cycle", tx "krebs cycle"]),
    (tx "oxidative phosphorylation", [tx "electron transport chain", tx "etc", tx "atp synthase"]),
    (tx "enzyme kinetics", [tx "km", tx "vmax", tx "michaelis menten", tx "lineweaver burk"])]),
  (tx "immunity", [
    (tx "antigen", [tx "epitope"]),
    (tx "antibody", [tx "immunoglobulin", tx "igg", tx "iga", tx "igm"]),
    (tx "t cell", [tx "cd4", tx "cd8", tx "cytotoxic t lymphocyte"]),
    (tx "mhc", [tx "major histocompatibility", tx "hla"]),
    (tx "cytokines", [tx "il-2", tx "interleukin", tx "ifn-gamma"])])]

/-- The fixed chemistry-abbreviation vocabulary `CHEM_TOKENS` of
concept_check.py (a Python set; only membership and iteration under
`all`/nonemptiness are used, so list order is irrelevant). -/
def CHEM_TOKENS : List Text :=
  [tx "cooh", tx "nh3", tx "nh2", tx "nterm", tx "cterm", tx "imidazole"]

/-- The stems of a lowered phrase `pl` (concept_check.py lines 59-60):
alphabetic words (`re.findall(r"[a-z]+", pl)`) of length greater than 4,
each truncated to its first five characters. -/
def stemsOf (pl : Text) : List Text :=
  ((runsOf Char.isLower pl).filter (fun w => 4 < w.length)).map (fun w => w.take 5)

/-- The "long-word stem match" of concept_check.py line 61:
`long_ok = stems and all(stem in student for stem in stems)`.
`student` is the lower-cased answer text, as passed at the call site. -/
def long_ok (pl student : Text) : Bool :=
  !(stemsOf pl).isEmpty && (stemsOf pl).all (fun stem => inStr stem student)

/-- Keep lower-case ASCII letters and digits (`re.sub(r"[^a-z0-9]+", "", ·)`
on an already lower-cased string). -/
def alnumOnly (s : Text) : Text := s.filter (fun c => c.isLower || c.isDigit)

/-- The "short chemistry token match" of concept_check.py lines 63-73. -/
def short_ok (pl student : Text) : Bool :=
  let student_norm := alnumOnly student
  let phrase_norm := alnumOnly pl
  let token_hits :=
    (CHEM_TOKENS.filter (fun tok => inStr tok phrase_norm)).map
      (fun tok => inStr tok student_norm)
  !token_hits.isEmpty && token_hits.all id

/-- The candidate phrase set of concept_check.py lines 44-49: the concept
itself plus its synonym variants for the given domain, empty phrases
dropped.  (The source guards with `if domain and domain in BIO_CONCEPTS`;
a falsy/absent domain key yields no variants either way.) -/
def candidatePhrases (concept : Text) (domain : Option Text) : List Text :=
  (concept :: (match domain with
    | none => []
    | some d =>
      match List.lookup d BIO_CONCEPTS with
      | none => []
      | some tbl => (List.lookup concept tbl).getD [])).filter
    (fun p => !p.isEmpty)

/-- concept_check.py lines 33-78: the part of `concept_hit` that follows the
numeric check (short-phrase direct match, then per-phrase stem/token tests).
`student` is the already lower-cased answer. -/
def concept_hit_phrases (concept student_answer : Text) (domain : Option Text)
    (student : Text) : Bool :=
  let norm_concept := normalize concept
  let norm_student := normalize student_answer
  let words := runsOf Char.isAlpha norm_concept
  let long_words := words.filter (fun w => 4 < w.length)
  if !norm_concept.isEmpty && inStr norm_concept norm_student && long_words.isEmpty then
    true
  else
    let phrases := candidatePhrases concept domain
    if phrases.isEmpty then false
    else phrases.any (fun phrase =>
      long_ok (lowerText phrase) student || short_ok (lowerText phrase) student)

/-- `concept_hit` of concept_check.py (lines 14-78): decide whether the
student's answer exhibits the concept, via the numeric check, the
short-phrase direct match, and the per-phrase stem/token tests. -/
def concept_hit (concept student_answer : Text) (domain : Option Text) : Bool :=
  let student := lowerText student_answer
  if concept.any Char.isDigit then
    let nums := extractNums concept
    if !nums.isEmpty then
      if !(nums.all fun n => inStr n student) then false
      else if !(concept.any Char.isAlpha) then true
      else concept_hit_phrases concept student_answer domain student
    else concept_hit_phrases concept student_answer domain student
  else concept_hit_phrases concept student_answer domain student

/-- The values a per-question JSON concept specification can hold for its
`wrong_triggers` and `followups` entries: either a list of prompt variants
or a single prompt string (socratic_engine.py handles both shapes). -/
inductive PromptVal where
  | plist : List Text → PromptVal
  | pstr : Text → PromptVal
deriving DecidableEq

/-- One entry of a module's `*_answers.json` specification file, typed per
the data model the sources read from it.  `dict_nonempty` records the Python
truthiness of the underlying JSON object (whether the dict has at least one
key); socratic_engine.py line 88 branches on it (`if not spec`).  A key that
is absent or whose value is not a dict is modelled as an absent entry
(both behave identically in concept_check.py lines 114-119). -/
structure ConceptSpec where
  dict_nonempty : Bool
  concept_domain : Option Text
  required_concepts : List Text
  optional_concepts : List Text
  followups : List (Text × PromptVal)
  encouragement : List Text
  uncertainty_followup : Option Text
  wrong_triggers : List (Text × PromptVal)
deriving DecidableEq

/-- The content of a module's `*_answers.json` file: position key → spec
record.  `load_concept_spec` reads this from disk; the embedding passes the
loaded content explicitly. -/
abbrev SpecMap := List (Text × ConceptSpec)

/-- concept_check.py lines 99-103: the explicit question number carried by a
stem such as `"21."` or `"21)"` (`re.match(r"\s*(\d+)\s*[\.\)]", stem.strip())`). -/
def stemLeadingNum (stem : Text) : Option Nat :=
  let s := pyStrip stem
  let ds := s.takeWhile Char.isDigit
  if ds.isEmpty then none
  else
    match (s.dropWhile Char.isDigit).dropWhile isPySpace with
    | '.' :: _ => some (ds.foldl (fun n c => 10 * n + (c.toNat - 48)) 0)
    | ')' :: _ => some (ds.foldl (fun n c => 10 * n + (c.toNat - 48)) 0)
    | _ => none

/-- Decimal rendering of a natural number (Python `str(n)`). -/
def natText (n : Nat) : Text := (Nat.repr n).data

/-- `evaluate_concepts` of concept_check.py (lines 88-129).  `spec_all` is
the loaded `*_answers.json` content for the module (the source reads it via
`load_concept_spec(module_id)`).  `qid` is the 0-based question index;
`part_idx` models the Python argument that may be `None` or negative. -/
def evaluate_concepts (spec_all : SpecMap) (qid : Nat) (student_answer : Text)
    (part_idx : Option Int) (stem : Option Text) :
    List Text × List Text × Option ConceptSpec :=
  let qnum_from_stem : Option Nat :=
    match stem with
    | none => none
    | some s => if s.isEmpty then none else stemLeadingNum s
  let qnum_str : Text := natText (qnum_from_stem.getD (qid + 1))
  let pi0 : Int := part_idx.getD 0
  let pi : Nat := if pi0 < 0 then 0 else pi0.toNat
  let letter : Char := Char.ofNat (97 + pi)
  let part_key := qnum_str ++ [letter]
  let spec? :=
    match List.lookup part_key spec_all with
    | some s => some s
    | none => List.lookup qnum_str spec_all
  match spec? with
  | none => ([], [], none)
  | some spec =>
    let domain := spec.concept_domain
    let missing_required :=
      spec.required_concepts.filter (fun c => !concept_hit c student_answer domain)
    let missing_optional :=
      spec.optional_concepts.filter (fun c => !concept_hit c student_answer domain)
    (missing_required, missing_optional, some spec)

/-- The uncertainty idioms of concept_check.py lines 136-146. -/
def uncertaintyIdioms : List Text :=
  [tx "i don" ++ apos :: tx "t know",
   tx "idk",
   tx "not sure",
   tx "i am not sure",
   tx "no idea",
   tx "i" ++ apos :: tx "m unsure",
   tx "unsure",
   tx "i" ++ apos :: tx "m confused",
   tx "i am confused"]

/-- `is_uncertain` of concept_check.py (lines 131-147). -/
def is_uncertain (text : Text) : Bool :=
  let t := lowerText (pyStrip text)
  uncertaintyIdioms.any (fun u => inStr u t)

/-- `re.findall(r"[a-zA-Z]{2,}", s)`: maximal alphabetic runs of length at
least two. -/
def wordRuns (s : Text) : List Text :=
  (runsOf Char.isAlpha s).filter (fun w => 2 ≤ w.length)

/-- `is_gibberish` of concept_check.py (lines 151-187).  The two Python
float-ratio comparisons (`letters/len < 0.5`, `vowels/letters < 0.25`) are
modelled by the exact integer inequalities `2*letters < len` and
`4*vowels < letters`, which agree with the float computation for every text
far below 2^50 characters. -/
def is_gibberish (text : Text) : Bool :=
  let t := pyStrip text
  if t.isEmpty then true
  else if t.length < 4 then false
  else if is_uncertain t then false
  else
    let letters := (t.filter Char.isAlpha).length
    if 2 * letters < max 1 t.length then true
    else
      let words := wordRuns (lowerText t)
      if words.isEmpty then true
      else
        let vowels := ((lowerText t).filter
          (fun c => c == 'a' || c == 'e' || c == 'i' || c == 'o' || c == 'u')).length
        if 10 ≤ t.length && 4 * vowels < max 1 letters then true
        else if words.length ≤ 1 && 12 ≤ (words.map List.length).foldr max 0 then true
        else false

/-- One parsed question of question_loader.py: the dict
`{"q": stem, "parts": [subparts...]}`. -/
structure Question where
  q : Text
  parts : List Text
deriving DecidableEq

/-- `QuestionPointer` of question_loader.py lines 9-14 (0-based indices;
the optional `part` letter is carried but never set by `next_pointer`). -/
structure QuestionPointer where
  qi : Nat
  si : Nat
  part : Option Text
deriving DecidableEq

/-- `ModuleBundle` of question_loader.py lines 16-25.  The `diagrams` JSON
object is opaque to every claim and is modelled as an association list. -/
structure ModuleBundle where
  module_id : Text
  title : Text
  questions : List Question
  answers : List (List Text)
  notes : List Text
  diagrams : List (Text × Text)
deriving DecidableEq

/-- `ModuleBundle.subparts_count` (question_loader.py lines 48-52).  The
source also returns 1 for `qi < 0`; with the 0-based `Nat` index that branch
is vacuous. -/
def subparts_count (b : ModuleBundle) (qi : Nat) : Nat :=
  match b.questions[qi]? with
  | none => 1
  | some q => max 1 q.parts.length

/-- `next_pointer` (question_loader.py lines 303-314): advance to the next
sub-part; if none, the next question; `none` at the end. -/
def next_pointer (b : ModuleBundle) (ptr : QuestionPointer) : Option QuestionPointer :=
  let count := subparts_count b ptr.qi
  if ptr.si + 1 < count then some ⟨ptr.qi, ptr.si + 1, none⟩
  else if ptr.qi + 1 < b.questions.length then some ⟨ptr.qi + 1, 0, none⟩
  else none

/-- `_Q_LINE` (question_loader.py line 111): does the line match
`^\s*\d+\s*[\.\)]`? -/
def matchQLine (l : Text) : Bool :=
  let l1 := l.dropWhile isPySpace
  let ds := l1.takeWhile Char.isDigit
  !ds.isEmpty &&
    (match (l1.dropWhile Char.isDigit).dropWhile isPySpace with
     | '.' :: _ => true
     | ')' :: _ => true
     | _ => false)

/-- Is the character in the `[a-fA-F]` class of `_SUB_LINE`? -/
def isSubLetter (c : Char) : Bool :=
  ('a' ≤ c && c ≤ 'f') || ('A' ≤ c && c ≤ 'F')

/-- `_SUB_LINE` (question_loader.py line 112): does the line match
`^\s*[a-fA-F]\s*[\.\)]`? -/
def matchSubLine (l : Text) : Bool :=
  match l.dropWhile isPySpace with
  | [] => false
  | c :: rest =>
    isSubLetter c &&
      (match rest.dropWhile isPySpace with
       | '.' :: _ => true
       | ')' :: _ => true
       | _ => false)

/-- The `\w` class of the inline-marker lookbehind `(?<!\w)`. -/
def isWordChar (c : Char) : Bool := c.isAlpha || c.isDigit || c == '_'

/-- Does the inline-part pattern `(?<!\w)([a-z])[\.\)]\s+` (IGNORECASE)
match `s` at position `i`?  The out-of-range defaults make every condition
fail beyond the end of the string. -/
def markerAt (s : Text) (i : Nat) : Bool :=
  (s.getD i ' ').isAlpha
    && (i == 0 || !isWordChar (s.getD (i - 1) ' '))
    && (s.getD (i + 1) 'x' == '.' || s.getD (i + 1) 'x' == ')')
    && isPySpace (s.getD (i + 2) 'x')

/-- All match positions of the inline-part pattern, in increasing order.
A match spans its letter, the punctuation and the following whitespace run;
no letter occurs inside that span past the first character, so matches never
overlap and `re.finditer` finds exactly the positions where `markerAt`
holds. -/
def markerPositions (s : Text) : List Nat :=
  (List.range s.length).filter (markerAt s)

/-- The end position of the inline-part match starting at `i` (after the
greedy `\s+`). -/
def markerEnd (s : Text) (i : Nat) : Nat :=
  i + 2 + ((s.drop (i + 2)).takeWhile isPySpace).length

/-- The characters stripped from an inline sub-part body:
`.strip(" \t-:;")` (question_loader.py line 176). -/
def isPartStripChar (c : Char) : Bool :=
  c == ' ' || c == '\t' || c == '-' || c == ':' || c == ';'

/-- The local `_split_inline_parts` of `_parse_qa_lines` (question_loader.py
lines 158-181): split a question line with embedded `a. ... b. ...` markers
into the stem (text before the first marker) and one `"x) body"` sub-part
per marker-delimited nonempty span. -/
def split_inline_parts (text : Text) : Text × List Text :=
  let s := pyStrip text
  let ms := markerPositions s
  match ms with
  | [] => (s, [])
  | m0 :: _ =>
    let stem := pyStrip (s.take m0)
    let parts := (ms.zip (ms.drop 1 ++ [s.length])).filterMap (fun pr =>
      let letter := (s.getD pr.1 'a').toLower
      let body := stripChars isPartStripChar ((s.take pr.2).drop (markerEnd s pr.1))
      if body.isEmpty then none else some (letter :: ')' :: ' ' :: body))
    (stem, parts)

/-- The fold state of `_parse_qa_lines`: accumulated questions, the question
under construction, and whether a question-start line has been seen. -/
structure ParseSt where
  out : List Question
  cur : Option Question
  started : Bool

/-- One iteration of the `for raw in lines` loop of `_parse_qa_lines`
(question_loader.py lines 191-221). -/
def parseStep (st : ParseSt) (raw : Text) : ParseSt :=
  let line := pyStrip raw
  if line.isEmpty then st
  else if matchQLine line then
    let split := split_inline_parts line
    { out := st.out ++ st.cur.toList,
      cur := some { q := split.1, parts := split.2 },
      started := true }
  else if !st.started then st
  else
    match st.cur with
    | some c =>
      if matchSubLine line then
        { st with cur := some { c with parts := c.parts ++ [line] } }
      else if c.parts.isEmpty then
        { st with cur := some { c with q := pyStrip (c.q ++ ' ' :: line) } }
      else
        { st with cur := some { c with
            parts := c.parts.dropLast ++ [pyStrip (c.parts.getLastD [] ++ ' ' :: line)] } }
    | none =>
      -- unreachable in the source (`started` implies `cur` is set), kept verbatim
      { st with cur := some { q := line, parts := [] } }

/-- `_parse_qa_lines` of question_loader.py (lines 142-226): convert text
lines into the question outline. -/
def parse_qa_lines (lines : List Text) : List Question :=
  let st := lines.foldl parseStep ⟨[], none, false⟩
  st.out ++ st.cur.toList

/-- The error taxonomy of the document loader.  The source raises a
`ValueError("No questions found in ...")`; the specification names this
condition `DocumentError` of kind ParseFailure. -/
inductive DocumentError where
  | ParseFailure : Text → DocumentError
deriving DecidableEq

/-- The question-loading step of `load_module_bundle` (question_loader.py
lines 274-277), with the question file's content passed as its list of
lines: keep the non-blank lines, fail when none remain, otherwise parse. -/
def load_module_questions (q_lines_raw : List Text) :
    Except DocumentError (List Question) :=
  let q_lines := q_lines_raw.filter (fun l => !(pyStrip l).isEmpty)
  if q_lines.isEmpty then .error (.ParseFailure (tx "No questions found"))
  else .ok (parse_qa_lines q_lines)

/-- socratic_engine.py lines 33-37: the first-time gibberish prompt. -/
def gibberish_message : Text :=
  tx "I couldn’t understand that response.\nTry again using a short sentence (a few real words), or click **Skip / Next Question ⏭️**."

/-- socratic_engine.py lines 72-75: the repeat-gibberish nudge. -/
def stillNotReadableMsg : Text :=
  tx "Still not quite readable — let" ++ apos ::
    tx "s keep moving.\nClick **Skip / Next Question ⏭️** when you" ++ apos :: tx "re ready."

/-- socratic_engine.py lines 81-84: the repeat-uncertainty nudge. -/
def okayMoveOnMsg : Text :=
  tx "That" ++ apos :: tx "s totally okay — sometimes it" ++ apos ::
    tx "s best to keep moving. If you" ++ apos ::
    tx "d like, click **Skip / Next Question ⏭️** when you" ++ apos :: tx "re ready."

/-- The default `uncertainty_followup` text (socratic_engine.py line 25). -/
def defaultUncertainFollow : Text :=
  tx "Take a moment to jot down even a rough idea — what comes to mind?"

/-- `uncertainty_message` of socratic_engine.py (lines 22-31). -/
def uncertainty_message (spec : Option ConceptSpec) : Text :=
  let follow := pyStrip (match spec with
    | some sp => sp.uncertainty_followup.getD defaultUncertainFollow
    | none => defaultUncertainFollow)
  (tx "That" ++ apos :: tx "s totally okay — this concept can be tricky! 🧠💭\n")
    ++ follow ++ tx "\n\n"
    ++ (tx "If you" ++ apos :: tx "d like, you can also click **Skip / Next Question ⏭️** to move on.")

/-- socratic_engine.py line 89: the fallback when no spec resolved. -/
def niceStartMsg : Text := tx "Nice start — can you add one more molecular detail?"

/-- The default encouragement phrase (socratic_engine.py lines 122, 133). -/
def defaultEncouragement : Text :=
  tx "Keep going — you" ++ apos :: tx "re on the right track."

/-- The default follow-up when a missing concept has no registered prompt
(socratic_engine.py line 144). -/
def unclearFollowup : Text := tx "What part of the mechanism is still unclear?"

/-- socratic_engine.py lines 101-106: does the latest fragment match a
known-wrong trigger value?  Numeric triggers use the digit-boundary guard
`(?<!\d)<literal>(?!\d)`; text triggers are plain (lower-cased) substrings. -/
def numBoundaryHit (pat s : Text) : Bool :=
  (List.range (s.length + 1)).any fun i =>
    pat.isPrefixOf (s.drop i)
      && (i == 0 || !(s.getD (i - 1) ' ').isDigit)
      && !(s.getD (i + pat.length) ' ').isDigit

/-- The per-trigger match test of socratic_engine.py lines 101-106. -/
def triggerMatches (wrong_s latest : Text) : Bool :=
  if wrong_s.any Char.isDigit then numBoundaryHit wrong_s latest
  else inStr (lowerText wrong_s) latest

/-- socratic_engine.py lines 110-115: the follow-up text attached to a
trigger (or followup) value: a random choice among list variants, the
stripped string itself, or empty. -/
def promptChoice (pick : List Text → Text) : PromptVal → Text
  | .plist l => if l.isEmpty then [] else pick l
  | .pstr s => pyStrip s

/-- socratic_engine.py lines 118-123: a random encouragement phrase, or the
default when none are registered. -/
def encChoice (pick : List Text → Text) (enc_list : List Text) : Text :=
  if enc_list.isEmpty then defaultEncouragement else pick enc_list

/-- The `for wrong_val, prompts in wrong_triggers.items()` loop of
socratic_engine.py lines 96-124: first trigger whose (stripped, non-empty)
value matches the latest fragment and yields a non-empty follow-up text
produces the message `"{encouragement} {follow_text}"`. -/
def scan_wrong_triggers (pick : List Text → Text) (enc_list : List Text)
    (latest : Text) : List (Text × PromptVal) → Option Text
  | [] => none
  | (wrong_val, prompts) :: rest =>
    let wrong_s := pyStrip wrong_val
    if wrong_s.isEmpty then scan_wrong_triggers pick enc_list latest rest
    else if triggerMatches wrong_s latest then
      let follow_text := promptChoice pick prompts
      if follow_text.isEmpty then scan_wrong_triggers pick enc_list latest rest
      else some (encChoice pick enc_list ++ ' ' :: follow_text)
    else scan_wrong_triggers pick enc_list latest rest

/-- socratic_engine.py lines 130-146: the targeted follow-up for the first
missing required concept. -/
def followupMessage (pick : List Text → Text) (sp : ConceptSpec) (concept : Text) : Text :=
  let follow_text :=
    match List.lookup concept sp.followups with
    | some (.plist l) => if l.isEmpty then [] else pick l
    | some (.pstr s) => s
    | none => []
  let follow_text := if follow_text.isEmpty then unclearFollowup else follow_text
  encChoice pick sp.encouragement ++ ' ' :: follow_text

/-- `socratic_followup` of socratic_engine.py (lines 39-146).  `pick` models
`random.choice`; `spec_all` is the module's loaded `*_answers.json` content
(the source obtains it from `module_id` via `evaluate_concepts`).  Returns
`none` — the completion sentinel — or a follow-up message. -/
def socratic_followup (pick : List Text → Text) (spec_all : SpecMap) (qid : Nat)
    (student_answer : Text) (part_idx : Option Int) (stem : Text)
    (latest_answer : Text) (uncertain_now : Bool) (uncertain_count : Nat)
    (gibberish_now : Bool) (gibberish_count : Nat) : Option Text :=
  match evaluate_concepts spec_all qid (pyStrip student_answer) part_idx (some stem) with
  | (missing_required, _missing_optional, spec) =>
    if gibberish_now then
      some (if 1 ≤ gibberish_count then stillNotReadableMsg else gibberish_message)
    else if uncertain_now then
      some (if 1 ≤ uncertain_count then okayMoveOnMsg else uncertainty_message spec)
    else
      match spec with
      | none => some niceStartMsg
      | some sp =>
        if !sp.dict_nonempty then some niceStartMsg
        else
          let latest := pyStrip (lowerText latest_answer)
          match (if missing_required.isEmpty then none
                 else scan_wrong_triggers pick sp.encouragement latest sp.wrong_triggers) with
          | some msg => some msg
          | none =>
            match missing_required with
            | [] => none
            | concept :: _ => some (followupMessage pick sp concept)

/-- The stem set exactly as the specification's sentence describes it,
parameterized by the word-length threshold: alphabetic words of the
(lowered) phrase whose length exceeds `threshold`, truncated to their first
five characters.  The specification states threshold 5; the source
(concept_check.py line 59) uses threshold 4. -/
def specStems (threshold : Nat) (pl : Text) : List Text :=
  ((runsOf Char.isLower pl).filter (fun w => threshold < w.length)).map (fun w => w.take 5)

/-- All pointers of a module in document order: for each question, sub-part
indices `0 .. max(1, sub-part-count) - 1`. -/
def questionPointers (b : ModuleBundle) (qi : Nat) : List QuestionPointer :=
  (List.range (subparts_count b qi)).map (fun si => ⟨qi, si, none⟩)

/-- The full document-order pointer sequence of a module. -/
def allPointers (b : ModuleBundle) : List QuestionPointer :=
  (List.range b.questions.length).flatMap (questionPointers b)

/-- The trajectory of repeatedly applying `next_pointer`, fuel-bounded:
emits the current pointer, then continues from its successor; stops at the
terminal `none`. -/
def runPointers (b : ModuleBundle) : Nat → Option QuestionPointer → List QuestionPointer
  | _, none => []
  | 0, some _ => []
  | fuel + 1, some p => p :: runPointers b fuel (next_pointer b p)

/-- The document-order pointer sequence from position `(qi, si)` onward. -/
def tailPointers (b : ModuleBundle) (qi si : Nat) : List QuestionPointer :=
  ((List.range (subparts_count b qi)).drop si).map (fun s => ⟨qi, s, none⟩)
    ++ ((List.range b.questions.length).drop (qi + 1)).flatMap (questionPointers b)

/-- Test fixture: a concept specification with no required concepts,
realizable as the non-empty JSON object `{"required_concepts": []}`. -/
def specFixtureNoReq : ConceptSpec :=
  { dict_nonempty := true, concept_domain := none, required_concepts := [],
    optional_concepts := [], followups := [], encouragement := [],
    uncertainty_followup := none, wrong_triggers := [] }

/-- Test fixture: a specification with one required concept that the answer
`"x"` cannot exhibit, and the known-wrong trigger of the specification's
example. -/
def specFixtureTrigger : ConceptSpec :=
  { dict_nonempty := true, concept_domain := none,
    required_concepts := [tx "zzzzzz"], optional_concepts := [],
    followups := [], encouragement := [], uncertainty_followup := none,
    wrong_triggers := [(tx "7.0", PromptVal.plist [tx "Remember pH ≠ pI here"])] }

/-- Test fixture: a two-question module bundle (two sub-parts, then none). -/
def bundleFixture : ModuleBundle :=
  { module_id := tx "m", title := tx "t",
    questions := [{ q := tx "1. first", parts := [tx "a) x", tx "b) y"] },
                  { q := tx "2. second", parts := [] }],
    answers := [[], []], notes := [], diagrams := [] }

/-! ### General lemmas about the embedded primitives -/

theorem inStr_nil {p : Text} (h : p ≠ []) : inStr p [] = false := by
  simp [inStr, List.infix_nil, h]

theorem lowerText_nil : lowerText [] = [] := rfl

theorem normalize_nil : normalize [] = [] := rfl

theorem extractNumsAux_mem_ne_nil (fuel : Nat) (l : Text) :
    ∀ n ∈ extractNumsAux fuel l, n ≠ [] := by
  induction fuel generalizing l with
  | zero => intro n hn; simp [extractNumsAux] at hn
  | succ fuel ih =>
    intro n hn
    cases l with
    | nil => simp [extractNumsAux] at hn
    | cons c rest =>
      by_cases hc : c.isDigit
      · simp only [extractNumsAux, hc, if_true] at hn
        split at hn
        next heq =>
          split at hn
          · rcases List.mem_cons.mp hn with rfl | hmem
            · simp [List.takeWhile_cons, hc]
            · exact ih _ n hmem
          · rcases List.mem_cons.mp hn with rfl | hmem
            · simp [List.takeWhile_cons, hc]
            · exact ih _ n hmem
        next =>
          rcases List.mem_cons.mp hn with rfl | hmem
          · simp [List.takeWhile_cons, hc]
          · exact ih _ n hmem
      · simp only [extractNumsAux, hc, if_false, Bool.false_eq_true] at hn
        exact ih _ n hn

theorem extractNums_mem_ne_nil (s : Text) : ∀ n ∈ extractNums s, n ≠ [] :=
  extractNumsAux_mem_ne_nil s.length s

theorem extractNumsAux_ne_nil (fuel : Nat) (l : Text) (hlen : l.length ≤ fuel)
    (hdig : l.any Char.isDigit = true) : extractNumsAux fuel l ≠ [] := by
  induction fuel generalizing l with
  | zero =>
    have : l = [] := List.eq_nil_of_length_eq_zero (Nat.le_zero.mp hlen)
    subst this; simp at hdig
  | succ fuel ih =>
    cases l with
    | nil => simp at hdig
    | cons c rest =>
      by_cases hc : c.isDigit
      · simp only [extractNumsAux, hc, if_true]
        split
        · split <;> simp
        · simp
      · have hrest : rest.any Char.isDigit = true := by
          simp only [List.any_cons, hc, Bool.false_or] at hdig
          exact hdig
        have hlen' : rest.length ≤ fuel := Nat.le_of_succ_le_succ hlen
        simp only [extractNumsAux, hc, if_false, Bool.false_eq_true]
        exact ih rest hlen' hrest

theorem extractNums_ne_nil_of_digit (s : Text) (h : s.any Char.isDigit = true) :
    extractNums s ≠ [] :=
  extractNumsAux_ne_nil s.length s (Nat.le_refl _) h

theorem stemsOf_mem_ne_nil (pl : Text) : ∀ s ∈ stemsOf pl, s ≠ [] := by
  intro s hs
  simp only [stemsOf, List.mem_map] at hs
  obtain ⟨w, hw, rfl⟩ := hs
  have h4 : 4 < w.length := by
    have := (List.mem_filter.mp hw).2
    exact of_decide_eq_true this
  intro hnil
  rw [List.take_eq_nil_iff] at hnil
  rcases hnil with h | h
  · exact absurd h (by decide)
  · subst h; simp at h4

theorem long_ok_nil (pl : Text) : long_ok pl [] = false := by
  unfold long_ok
  cases h : stemsOf pl with
  | nil => simp
  | cons s rest =>
    have hs : s ≠ [] := stemsOf_mem_ne_nil pl s (h ▸ List.mem_cons_self s rest)
    simp [List.all_cons, inStr_nil hs]

theorem chem_tokens_ne_nil : ∀ t ∈ CHEM_TOKENS, t ≠ [] := by decide

theorem short_ok_nil (pl : Text) : short_ok pl [] = false := by
  unfold short_ok
  cases h : CHEM_TOKENS.filter (fun tok => inStr tok (alnumOnly pl)) with
  | nil => simp [h]
  | cons t rest =>
    have ht : t ∈ CHEM_TOKENS := (List.mem_filter.mp (h ▸ List.mem_cons_self t rest)).1
    have htn : t ≠ [] := chem_tokens_ne_nil t ht
    have : alnumOnly ([] : Text) = [] := rfl
    simp [h, this, List.all_cons, inStr_nil htn]

theorem concept_hit_phrases_nil (concept : Text) (domain : Option Text) :
    concept_hit_phrases concept [] domain [] = false := by
  have hany : (candidatePhrases concept domain).any
      (fun phrase => long_ok (lowerText phrase) [] || short_ok (lowerText phrase) []) = false := by
    rw [List.any_eq_false]
    intro phrase _
    simp [long_ok_nil, short_ok_nil]
  unfold concept_hit_phrases
  cases hnc : normalize concept with
  | nil => simp [hnc, hany, normalize_nil]
  | cons c t =>
    have : inStr (c :: t) (normalize []) = false := by
      rw [normalize_nil]; exact inStr_nil (by simp)
    simp [hnc, this, hany]

/-! ### C9 — `concept_hit` on the empty answer -/

/-- Claim C9: for every concept string and every domain, `concept_hit` of
the empty answer text is false — the numeric check, the short-phrase direct
match, the stem test and the chemistry-token test all fail against an empty
answer. -/
theorem concept_hit_empty_answer_false (concept : Text) (domain : Option Text) :
    concept_hit concept [] domain = false := by
  unfold concept_hit
  rw [lowerText_nil]
  by_cases hd : concept.any Char.isDigit
  · simp only [hd, if_true]
    cases hnum : extractNums concept with
    | nil => simp [concept_hit_phrases_nil]
    | cons n rest =>
      have hn : n ≠ [] :=
        extractNums_mem_ne_nil concept n (hnum ▸ List.mem_cons_self n rest)
      simp [hnum, List.all_cons, inStr_nil hn, concept_hit_phrases_nil]
  · simp only [Bool.not_eq_true] at hd
    simp [hd, concept_hit_phrases_nil]

/-! ### C4 — numeric concepts require their numbers verbatim -/

/-- Claim C4: for every concept containing a digit, every answer and every
domain, if some decimal number extracted from the concept is absent from the
lower-cased answer text, `concept_hit` is false. -/
theorem concept_hit_false_of_missing_number (concept answer : Text) (domain : Option Text)
    (n : Text) (hdig : concept.any Char.isDigit = true) (hn : n ∈ extractNums concept)
    (habs : inStr n (lowerText answer) = false) :
    concept_hit concept answer domain = false := by
  unfold concept_hit
  have hnum : ¬(extractNums concept).isEmpty := by
    simp [List.isEmpty_iff, List.ne_nil_of_mem hn]
  have hall : (extractNums concept).all (fun m => inStr m (lowerText answer)) = false := by
    rw [List.all_eq_false]
    exact ⟨n, hn, by simp [habs]⟩
  simp [hdig, hnum, hall]

/-- Witness for C4 at a concrete input: concept `"9.2"`, answer `"hello"`. -/
theorem concept_hit_false_of_missing_number_witness :
    concept_hit (tx "9.2") (tx "hello") none = false :=
  concept_hit_false_of_missing_number (tx "9.2") (tx "hello") none (tx "9.2")
    (by decide) (by decide) (by decide)

/-! ### C10 — `evaluate_concepts` clamps non-positive part indices -/

/-- Claim C10: `evaluate_concepts` with a `None` or non-positive `part_idx`
behaves exactly as with `part_idx = 0`: the sub-part index is clamped below
at 0, so the lookup letter is `a`. -/
theorem evaluate_concepts_clamp_part_idx (spec_all : SpecMap) (qid : Nat)
    (student_answer : Text) (stem : Option Text) (part_idx : Option Int)
    (h : part_idx = none ∨ ∃ n : Int, part_idx = some n ∧ n ≤ 0) :
    evaluate_concepts spec_all qid student_answer part_idx stem =
      evaluate_concepts spec_all qid student_answer (some 0) stem := by
  have hpi : (if part_idx.getD 0 < (0 : Int) then (0 : Nat) else (part_idx.getD 0).toNat)
      = 0 := by
    rcases h with rfl | ⟨n, rfl, hn⟩
    · rfl
    · simp only [Option.getD_some]
      rcases lt_or_eq_of_le hn with hlt | heq
      · rw [if_pos hlt]
      · subst heq; rfl
  have h0 : (if (some (0 : Int)).getD 0 < (0 : Int) then (0 : Nat)
      else ((some (0 : Int)).getD 0).toNat) = 0 := rfl
  simp only [evaluate_concepts]
  rw [hpi, h0]

/-- Witness for C10 at a concrete input: `part_idx = some (-2)`. -/
theorem evaluate_concepts_clamp_part_idx_witness :
    evaluate_concepts [] 0 (tx "a") (some (-2)) none =
      evaluate_concepts [] 0 (tx "a") (some 0) none :=
  evaluate_concepts_clamp_part_idx [] 0 (tx "a") none (some (-2))
    (Or.inr ⟨-2, rfl, by decide⟩)

/-! ### Stripping lemmas -/

theorem dropWhile_head_not {p : Char → Bool} {l : Text} {c : Char} {t : Text}
    (h : l.dropWhile p = c :: t) : p c = false := by
  induction l with
  | nil => simp at h
  | cons x xs ih =>
    rw [List.dropWhile_cons] at h
    by_cases hx : p x = true
    · rw [if_pos hx] at h; exact ih h
    · rw [if_neg hx] at h
      injection h with h1 _
      subst h1
      simpa using hx

theorem dropWhile_self (p : Char → Bool) (l : Text) :
    (l.dropWhile p).dropWhile p = l.dropWhile p := by
  cases h : l.dropWhile p with
  | nil => rfl
  | cons c t =>
    have hc := dropWhile_head_not h
    rw [List.dropWhile_cons, hc]
    simp

theorem trimEnd_prefix (p : Char → Bool) (l : Text) :
    (l.reverse.dropWhile p).reverse <+: l := by
  have h := @List.dropWhile_suffix Char l.reverse p
  have h2 := (@List.reverse_prefix Char (l.reverse.dropWhile p) l.reverse).mpr h
  rwa [List.reverse_reverse] at h2

theorem pyStrip_idem (l : Text) : pyStrip (pyStrip l) = pyStrip l := by
  unfold pyStrip stripChars
  set A := l.dropWhile isPySpace with hA
  set B := (A.reverse.dropWhile isPySpace).reverse with hB
  have hBA : B <+: A := trimEnd_prefix _ _
  have hdropB : B.dropWhile isPySpace = B := by
    cases hb : B with
    | nil => rfl
    | cons c t =>
      obtain ⟨s, hs⟩ := hBA
      have hAc : l.dropWhile isPySpace = c :: (t ++ s) := by
        rw [← hA, ← hs, hb]; simp
      have hc : isPySpace c = false := dropWhile_head_not hAc
      rw [List.dropWhile_cons, hc]
      simp
  rw [hdropB]
  have hrev : B.reverse = A.reverse.dropWhile isPySpace := by
    rw [hB, List.reverse_reverse]
  rw [hrev, dropWhile_self, ← hrev, List.reverse_reverse]

theorem pyStrip_length_le (l : Text) : (pyStrip l).length ≤ l.length := by
  unfold pyStrip stripChars
  have h1 := (@List.dropWhile_suffix Char l isPySpace).length_le
  have h2 := (@List.dropWhile_suffix Char (l.dropWhile isPySpace).reverse isPySpace).length_le
  simp only [List.length_reverse] at *
  omega

theorem uncertainty_idioms_ne_nil : ∀ u ∈ uncertaintyIdioms, u ≠ [] := by decide

theorem pyStrip_ne_nil_of_uncertain {s : Text} (h : is_uncertain s = true) :
    pyStrip s ≠ [] := by
  intro hnil
  unfold is_uncertain at h
  rw [hnil, lowerText_nil, List.any_eq_true] at h
  obtain ⟨u, hu, hinstr⟩ := h
  rw [inStr_nil (uncertainty_idioms_ne_nil u hu)] at hinstr
  exact absurd hinstr (by simp)

theorem is_uncertain_pyStrip (s : Text) : is_uncertain (pyStrip s) = is_uncertain s := by
  unfold is_uncertain
  rw [pyStrip_idem]

/-! ### C7 — `is_gibberish` on short and on uncertain text -/

/-- Counterexample to claim C7: the claim extends "strings shorter than 4
characters are never gibberish" to the empty string, but the source treats
empty (stripped-empty) text as gibberish (concept_check.py lines 156-157). -/
theorem is_gibberish_empty_counter : is_gibberish (tx "") = true := by decide

/-- Claim C7 as amended: `is_gibberish` is false for every string that
strips to a non-empty text of fewer than 4 characters and for every string
classified uncertain; the empty (or whitespace-only) string, however, is
gibberish. -/
theorem is_gibberish_false_short_or_uncertain (s : Text)
    (h : (pyStrip s ≠ [] ∧ s.length < 4) ∨ is_uncertain s = true) :
    is_gibberish s = false := by
  unfold is_gibberish
  rcases h with ⟨hne, hlen⟩ | hunc
  · have hstrip : ¬(pyStrip s).isEmpty = true := by
      simpa [List.isEmpty_iff] using hne
    have hlt : (pyStrip s).length < 4 := Nat.lt_of_le_of_lt (pyStrip_length_le s) hlen
    simp [hstrip, hlt]
  · have hne : pyStrip s ≠ [] := pyStrip_ne_nil_of_uncertain hunc
    have hstrip : ¬(pyStrip s).isEmpty = true := by
      simpa [List.isEmpty_iff] using hne
    have hu : is_uncertain (pyStrip s) = true := by
      rw [is_uncertain_pyStrip]; exact hunc
    by_cases hlt : (pyStrip s).length < 4
    · simp [hstrip, hlt]
    · simp [hstrip, hlt, hu]

/-- Witness for the amended C7: `"idk"` is uncertain and not gibberish. -/
theorem is_gibberish_false_short_or_uncertain_witness :
    is_uncertain (tx "idk") = true ∧ is_gibberish (tx "idk") = false :=
  ⟨by decide, is_gibberish_false_short_or_uncertain (tx "idk") (Or.inr (by decide))⟩

/-! ### C3 — the stem test inside `concept_hit` -/

/-- Counterexample to claim C3: the claim says stems come from words of
length greater than 5; the source (concept_check.py line 59) uses length
greater than 4.  On the five-letter concept `"lipid"` the claimed rule has
an empty stem set (so the stem test must fail and `concept_hit` must be
false), yet the code's stem test — and `concept_hit` — succeed. -/
theorem long_ok_five_letter_counter :
    long_ok (tx "lipid") (tx "lipid") = true ∧ specStems 5 (tx "lipid") = [] ∧
      concept_hit (tx "lipid") (tx "lipid") none = true := by decide

/-- Claim C3 as amended: for every candidate phrase the stem set is the
alphabetic words of the (lowered) phrase of length greater than 4 truncated
to their first 5 characters, and the stem test succeeds iff that set is
non-empty and every stem is a substring of the lower-cased answer (the
argument `concept_hit` passes); e.g. concept `"benign"` matches answer
`"The growth was BENIGNLY classified"`. -/
theorem long_ok_iff_spec_stems :
    (∀ pl student : Text, long_ok pl student = true ↔
      specStems 4 pl ≠ [] ∧ ∀ s ∈ specStems 4 pl, s <:+: student) ∧
    concept_hit (tx "benign") (tx "The growth was BENIGNLY classified") none = true := by
  constructor
  · intro pl student
    have hss : specStems 4 pl = stemsOf pl := rfl
    rw [hss]
    unfold long_ok
    simp [List.isEmpty_iff, List.all_eq_true, inStr]
  · decide

/-! ### C5 — behaviour when no question-start line exists -/

theorem foldl_parseStep_no_q : ∀ lines : List Text,
    (∀ l ∈ lines, matchQLine (pyStrip l) = false) →
    lines.foldl parseStep ⟨[], none, false⟩ = ⟨[], none, false⟩ := by
  intro lines
  induction lines with
  | nil => intro _; rfl
  | cons l rest ih =>
    intro h
    have hl := h l (List.mem_cons_self l rest)
    have hstep : parseStep ⟨[], none, false⟩ l = ⟨[], none, false⟩ := by
      unfold parseStep
      by_cases hemp : (pyStrip l).isEmpty = true
      · simp [hemp]
      · simp [hemp, hl]
    rw [List.foldl_cons, hstep]
    exact ih (fun x hx => h x (List.mem_cons_of_mem l hx))

theorem parse_qa_lines_nil_of_no_q (lines : List Text)
    (h : ∀ l ∈ lines, matchQLine (pyStrip l) = false) :
    parse_qa_lines lines = [] := by
  unfold parse_qa_lines
  rw [foldl_parseStep_no_q lines h]
  rfl

/-- Counterexample to claim C5: the claim says a line sequence with no
question-start line fails with a `DocumentError`, and that empty input
yields an empty outline without error.  The loader does the opposite: the
prose line `"hello"` (no question-start line) loads as an empty outline
without error, while the empty input is exactly what raises the error
(question_loader.py lines 274-276). -/
theorem load_questions_no_q_counter :
    load_module_questions [tx "hello"] = Except.ok [] ∧
      load_module_questions ([] : List Text) =
        Except.error (DocumentError.ParseFailure (tx "No questions found")) :=
  ⟨rfl, rfl⟩

/-- Claim C5 as amended: outline parsing itself never fails — any line
sequence with no question-start line parses to the empty outline — and the
loading step raises the document error exactly when no non-blank line
exists (in particular on empty input), returning the empty outline without
error otherwise. -/
theorem load_questions_no_q_behavior (lines : List Text)
    (h : ∀ l ∈ lines, matchQLine (pyStrip l) = false) :
    parse_qa_lines lines = [] ∧
      load_module_questions lines =
        (if (lines.filter (fun l => !(pyStrip l).isEmpty)).isEmpty
         then Except.error (DocumentError.ParseFailure (tx "No questions found"))
         else Except.ok []) := by
  refine ⟨parse_qa_lines_nil_of_no_q lines h, ?_⟩
  unfold load_module_questions
  by_cases hemp : (lines.filter (fun l => !(pyStrip l).isEmpty)).isEmpty = true
  · simp [hemp]
  · have hsub : ∀ l ∈ lines.filter (fun l => !(pyStrip l).isEmpty),
        matchQLine (pyStrip l) = false := fun l hl => h l (List.mem_filter.mp hl).1
    simp [hemp, parse_qa_lines_nil_of_no_q _ hsub]

/-- Witness for the amended C5 at the concrete input `["hello"]`. -/
theorem load_questions_no_q_behavior_witness :
    parse_qa_lines [tx "hello"] = [] ∧
      load_module_questions [tx "hello"] =
        (if ([tx "hello"].filter (fun l => !(pyStrip l).isEmpty)).isEmpty
         then Except.error (DocumentError.ParseFailure (tx "No questions found"))
         else Except.ok []) :=
  load_questions_no_q_behavior [tx "hello"] (by decide)

/-! ### C6 — inline sub-part markers on a question line -/

/-- Counterexample to claim C6: parsing `"3. First part a. alpha b. beta"`
does not yield stem `"First part"` with sub-parts `"alpha"`, `"beta"` — the
parser keeps the numeric label in the stem and re-tags each sub-part with
its letter marker. -/
theorem parse_inline_markers_counter :
    decide (parse_qa_lines [tx "3. First part a. alpha b. beta"] =
      [{ q := tx "First part", parts := [tx "alpha", tx "beta"] }]) = false := by decide

/-- Claim C6 as amended: the single line `"3. First part a. alpha b. beta"`
parses to exactly one Question; the text before the first single-letter
marker becomes the stem (`"3. First part"` — the question number is kept),
and each marker-delimited span becomes one sub-part in order, stored with
its letter marker (`"a) alpha"`, `"b) beta"`). -/
theorem parse_inline_markers_actual :
    parse_qa_lines [tx "3. First part a. alpha b. beta"] =
      [{ q := tx "3. First part", parts := [tx "a) alpha", tx "b) beta"] }] := by decide

/-! ### C1 — the completion sentinel -/

/-- Claim C1: with the submission classified neither gibberish nor uncertain
and a non-empty concept specification resolving for the position,
`socratic_followup` returns the completion sentinel `none` iff
`evaluate_concepts` reports no missing required concepts for that position
and (stripped, as the engine evaluates it) answer text. -/
theorem socratic_complete_iff_no_missing (pick : List Text → Text) (spec_all : SpecMap)
    (qid : Nat) (student_answer : Text) (part_idx : Option Int) (stem : Text)
    (latest_answer : Text) (ucount gcount : Nat) (mr mo : List Text) (sp : ConceptSpec)
    (heval : evaluate_concepts spec_all qid (pyStrip student_answer) part_idx (some stem)
      = (mr, mo, some sp))
    (hne : sp.dict_nonempty = true) :
    (socratic_followup pick spec_all qid student_answer part_idx stem latest_answer
      false ucount false gcount = none) ↔ mr = [] := by
  unfold socratic_followup
  rw [heval]
  cases mr with
  | nil => simp [hne]
  | cons c cs =>
    cases hscan : scan_wrong_triggers pick sp.encouragement
        (pyStrip (lowerText latest_answer)) sp.wrong_triggers with
    | none => simp [hne, hscan]
    | some m => simp [hne, hscan]

/-- Witness for C1: with no required concepts at position `"1a"`, the
completion sentinel is returned. -/
theorem socratic_complete_iff_no_missing_witness :
    evaluate_concepts [(tx "1a", specFixtureNoReq)] 0 (pyStrip (tx "x")) (some 0)
        (some (tx "")) = ([], [], some specFixtureNoReq) ∧
      socratic_followup (fun l => l.headD []) [(tx "1a", specFixtureNoReq)] 0 (tx "x")
        (some 0) (tx "") (tx "") false 0 false 0 = none :=
  ⟨rfl,
    (socratic_complete_iff_no_missing (fun l => l.headD []) [(tx "1a", specFixtureNoReq)]
      0 (tx "x") (some 0) (tx "") (tx "") 0 0 [] [] specFixtureNoReq rfl rfl).mpr rfl⟩

/-! ### C8 — known-wrong trigger messages -/

/-- Claim C8: with a non-gibberish, non-uncertain submission, a resolved
non-empty spec whose `wrong_triggers` is `{"7.0": ["Remember pH ≠ pI here"]}`
and at least one missing required concept, the latest fragment
`"the pH is 7.0 exactly"` produces a message that is an encouragement phrase
plus that trigger's corrective prompt (so the prompt text is contained in the
message); and the digit-boundary guard keeps a numeric trigger like `"1.8"`
from matching inside `"21.8"`. -/
theorem socratic_wrong_trigger_message (pick : List Text → Text)
    (hpick : ∀ l : List Text, l ≠ [] → pick l ∈ l)
    (spec_all : SpecMap) (qid : Nat) (student_answer : Text) (part_idx : Option Int)
    (stem : Text) (ucount gcount : Nat) (mr mo : List Text) (sp : ConceptSpec)
    (heval : evaluate_concepts spec_all qid (pyStrip student_answer) part_idx (some stem)
      = (mr, mo, some sp))
    (hne : sp.dict_nonempty = true) (hmr : mr ≠ [])
    (htrig : sp.wrong_triggers =
      [(tx "7.0", PromptVal.plist [tx "Remember pH ≠ pI here"])]) :
    (∃ enc, socratic_followup pick spec_all qid student_answer part_idx stem
        (tx "the pH is 7.0 exactly") false ucount false gcount
        = some (enc ++ ' ' :: tx "Remember pH ≠ pI here")
      ∧ tx "Remember pH ≠ pI here" <:+: enc ++ ' ' :: tx "Remember pH ≠ pI here")
    ∧ triggerMatches (tx "1.8") (tx "the ph is 21.8") = false := by
  refine ⟨?_, by decide⟩
  have hp : pick [tx "Remember pH ≠ pI here"] = tx "Remember pH ≠ pI here" := by
    have h := hpick [tx "Remember pH ≠ pI here"] (by simp)
    simpa using h
  have hlatest : pyStrip (lowerText (tx "the pH is 7.0 exactly"))
      = tx "the ph is 7.0 exactly" := by decide
  have hmatch : triggerMatches (pyStrip (tx "7.0")) (tx "the ph is 7.0 exactly") = true := by
    decide
  have hscan : scan_wrong_triggers pick sp.encouragement (tx "the ph is 7.0 exactly")
      sp.wrong_triggers
      = some (encChoice pick sp.encouragement ++ ' ' :: tx "Remember pH ≠ pI here") := by
    rw [htrig]
    have h1 : (pyStrip (tx "7.0")).isEmpty = false := rfl
    have h2 : ([tx "Remember pH ≠ pI here"] : List Text).isEmpty = false := rfl
    have h3 : (tx "Remember pH ≠ pI here").isEmpty = false := rfl
    simp [scan_wrong_triggers, promptChoice, h1, h2, h3, hmatch, hp]
  refine ⟨encChoice pick sp.encouragement, ?_, ?_⟩
  · unfold socratic_followup
    rw [heval]
    obtain ⟨c, cs, rfl⟩ := List.exists_cons_of_ne_nil hmr
    rw [hlatest]
    simp [hne, hscan]
  · exact ((List.suffix_cons ' ' (tx "Remember pH ≠ pI here")).trans
      (List.suffix_append _ _)).isInfix

/-- Witness for C8 at a concrete input: the fixture spec at position `"1a"`,
accumulated answer `"x"` (missing its required concept), latest fragment
`"the pH is 7.0 exactly"`. -/
theorem socratic_wrong_trigger_message_witness :
    (∃ enc, socratic_followup (fun l => l.headD []) [(tx "1a", specFixtureTrigger)] 0
        (tx "x") (some 0) (tx "") (tx "the pH is 7.0 exactly") false 0 false 0
        = some (enc ++ ' ' :: tx "Remember pH ≠ pI here")
      ∧ tx "Remember pH ≠ pI here" <:+: enc ++ ' ' :: tx "Remember pH ≠ pI here")
    ∧ triggerMatches (tx "1.8") (tx "the ph is 21.8") = false :=
  socratic_wrong_trigger_message (fun l => l.headD [])
    (by
      intro l hl
      cases l with
      | nil => exact absurd rfl hl
      | cons a t => simp)
    [(tx "1a", specFixtureTrigger)] 0 (tx "x") (some 0) (tx "") 0 0
    [tx "zzzzzz"] [] specFixtureTrigger rfl rfl (by simp) rfl

/-! ### C2 — total, monotonic, terminating pointer advancement -/

theorem subparts_count_pos (b : ModuleBundle) (qi : Nat) : 0 < subparts_count b qi := by
  unfold subparts_count
  cases b.questions[qi]? with
  | none => exact Nat.zero_lt_one
  | some q => exact Nat.lt_of_lt_of_le Nat.zero_lt_one (Nat.le_max_left _ _)

theorem tailPointers_head (b : ModuleBundle) (qi si : Nat)
    (hsi : si < subparts_count b qi) :
    tailPointers b qi si = ⟨qi, si, none⟩ ::
      (((List.range (subparts_count b qi)).drop (si + 1)).map (fun s => ⟨qi, s, none⟩)
        ++ ((List.range b.questions.length).drop (qi + 1)).flatMap (questionPointers b)) := by
  unfold tailPointers
  have hlt : si < (List.range (subparts_count b qi)).length := by
    rw [List.length_range]; exact hsi
  rw [List.drop_eq_getElem_cons hlt, List.getElem_range, List.map_cons, List.cons_append]

theorem flatMap_drop_succ (b : ModuleBundle) (qi : Nat)
    (h : qi + 1 < b.questions.length) :
    ((List.range b.questions.length).drop (qi + 1)).flatMap (questionPointers b)
      = questionPointers b (qi + 1)
        ++ ((List.range b.questions.length).drop (qi + 2)).flatMap (questionPointers b) := by
  have hlt : qi + 1 < (List.range b.questions.length).length := by
    rw [List.length_range]; exact h
  rw [List.drop_eq_getElem_cons hlt, List.getElem_range, List.flatMap_cons]

theorem tailPointers_zero (b : ModuleBundle) (qi : Nat) :
    tailPointers b (qi + 1) 0
      = questionPointers b (qi + 1)
        ++ ((List.range b.questions.length).drop (qi + 2)).flatMap (questionPointers b) := by
  unfold tailPointers questionPointers
  rw [List.drop_zero]

theorem runPointers_eq_tailPointers (b : ModuleBundle) : ∀ L qi si : Nat,
    qi < b.questions.length → si < subparts_count b qi →
    (tailPointers b qi si).length = L + 1 →
    runPointers b (L + 2) (some ⟨qi, si, none⟩) = tailPointers b qi si := by
  intro L
  induction L with
  | zero =>
    intro qi si hqi hsi hlen
    rw [tailPointers_head b qi si hsi] at hlen ⊢
    simp only [List.length_cons, Nat.add_right_cancel_iff] at hlen
    rw [List.length_append, Nat.add_eq_zero] at hlen
    obtain ⟨hlen1, hlen2⟩ := hlen
    have hs1 : ¬(si + 1 < subparts_count b qi) := by
      intro hcon
      have hlt : si + 1 < (List.range (subparts_count b qi)).length := by
        rw [List.length_range]; exact hcon
      rw [List.drop_eq_getElem_cons hlt] at hlen1
      simp at hlen1
    have hq1 : ¬(qi + 1 < b.questions.length) := by
      intro hcon
      rw [flatMap_drop_succ b qi hcon, List.length_append] at hlen2
      have hpos := subparts_count_pos b (qi + 1)
      have : (questionPointers b (qi + 1)).length = subparts_count b (qi + 1) := by
        unfold questionPointers
        rw [List.length_map, List.length_range]
      omega
    have hmap : ((List.range (subparts_count b qi)).drop (si + 1)).map
        (fun s => (⟨qi, s, none⟩ : QuestionPointer)) = [] := List.eq_nil_of_length_eq_zero hlen1
    have hflat : ((List.range b.questions.length).drop (qi + 1)).flatMap
        (questionPointers b) = [] := List.eq_nil_of_length_eq_zero hlen2
    rw [hmap, hflat]
    show (⟨qi, si, none⟩ : QuestionPointer) ::
        runPointers b 1 (next_pointer b ⟨qi, si, none⟩) = _
    unfold next_pointer
    simp only [hs1, if_false, hq1]
    rfl
  | succ L ih =>
    intro qi si hqi hsi hlen
    rw [tailPointers_head b qi si hsi] at hlen ⊢
    simp only [List.length_cons, Nat.add_right_cancel_iff] at hlen
    show (⟨qi, si, none⟩ : QuestionPointer) ::
        runPointers b (L + 2) (next_pointer b ⟨qi, si, none⟩) = _
    by_cases hs1 : si + 1 < subparts_count b qi
    · have hnext : next_pointer b ⟨qi, si, none⟩ = some ⟨qi, si + 1, none⟩ := by
        unfold next_pointer
        simp [hs1]
      have htail : tailPointers b qi (si + 1)
          = ((List.range (subparts_count b qi)).drop (si + 1)).map (fun s => ⟨qi, s, none⟩)
            ++ ((List.range b.questions.length).drop (qi + 1)).flatMap (questionPointers b) :=
        rfl
      rw [hnext, ih qi (si + 1) hqi hs1 (by rw [htail]; exact hlen), htail]
    · have hdrop : ((List.range (subparts_count b qi)).drop (si + 1)).map
          (fun s => (⟨qi, s, none⟩ : QuestionPointer)) = [] := by
        rw [List.drop_eq_nil_of_le (by rw [List.length_range]; omega)]
        rfl
      rw [hdrop, List.nil_append] at hlen ⊢
      by_cases hq1 : qi + 1 < b.questions.length
      · have hnext : next_pointer b ⟨qi, si, none⟩ = some ⟨qi + 1, 0, none⟩ := by
          unfold next_pointer
          simp [hs1, hq1]
        have hlen' : (tailPointers b (qi + 1) 0).length = L + 1 := by
          rw [tailPointers_zero b qi, ← flatMap_drop_succ b qi hq1]
          exact hlen
        rw [hnext, ih (qi + 1) 0 hq1 (subparts_count_pos b (qi + 1)) hlen',
          tailPointers_zero b qi, ← flatMap_drop_succ b qi hq1]
      · exfalso
        rw [List.drop_eq_nil_of_le (by rw [List.length_range]; omega)] at hlen
        simp at hlen

theorem allPointers_eq_tailPointers (b : ModuleBundle) (h : b.questions ≠ []) :
    allPointers b = tailPointers b 0 0 := by
  have hq : 0 < b.questions.length := List.length_pos.mpr h
  have hlt : 0 < (List.range b.questions.length).length := by
    rw [List.length_range]; exact hq
  unfold allPointers tailPointers questionPointers
  rw [List.drop_zero]
  conv_lhs => rw [← List.drop_zero (List.range b.questions.length),
    List.drop_eq_getElem_cons hlt, List.getElem_range, List.flatMap_cons]

theorem allPointers_nodup (b : ModuleBundle) : (allPointers b).Nodup := by
  unfold allPointers
  rw [List.nodup_flatMap]
  constructor
  · intro qi _
    unfold questionPointers
    refine List.Nodup.map ?_ (List.nodup_range _)
    intro a a' haa
    have := congrArg QuestionPointer.si haa
    simpa using this
  · refine (List.pairwise_lt_range b.questions.length).imp ?_
    intro qi qj hlt
    simp only [Function.onFun]
    intro p hpi hpj
    simp only [questionPointers, List.mem_map] at hpi hpj
    obtain ⟨si, _, rfl⟩ := hpi
    obtain ⟨sj, _, hj⟩ := hpj
    have : qi = qj := congrArg QuestionPointer.qi hj.symm
    omega

/-- Claim C2: from `(0,0)` (the first position of a non-empty module — the
pointer invariant requires at least one question), iterating `next_pointer`
visits for each question index, in increasing order, the sub-part indices
`0 .. max(1, sub-part-count) - 1` exactly once each in lexicographic order,
and then yields the terminal `none`: with fuel one beyond the count of all
pairs, the emitted trajectory is exactly the duplicate-free document-order
pointer list. -/
theorem next_pointer_traverses_all (b : ModuleBundle) (h : b.questions ≠ []) :
    runPointers b ((allPointers b).length + 1) (some ⟨0, 0, none⟩) = allPointers b
      ∧ (allPointers b).Nodup := by
  refine ⟨?_, allPointers_nodup b⟩
  have hq : 0 < b.questions.length := List.length_pos.mpr h
  have hs : 0 < subparts_count b 0 := subparts_count_pos b 0
  rw [allPointers_eq_tailPointers b h]
  obtain ⟨L, hL⟩ : ∃ L, (tailPointers b 0 0).length = L + 1 := by
    rw [tailPointers_head b 0 0 hs]
    exact ⟨_, by rw [List.length_cons]⟩
  rw [hL]
  exact runPointers_eq_tailPointers b L 0 0 hq hs hL

/-- Witness for C2 on a concrete two-question bundle. -/
theorem next_pointer_traverses_all_witness :
    runPointers bundleFixture ((allPointers bundleFixture).length + 1)
        (some ⟨0, 0, none⟩) = allPointers bundleFixture
      ∧ (allPointers bundleFixture).Nodup :=
  next_pointer_traverses_all bundleFixture (by simp [bundleFixture])

/-! ### Sanity checks of the embedding on the specification's examples -/

theorem sanity_purely_numeric_concept :
    concept_hit (tx "9.2") (tx "it is about 9.2 or so") none = true := by decide

theorem sanity_short_phrase_direct :
    concept_hit (tx "net charge") (tx "the net charge here is tricky") none = true := by
  decide

theorem sanity_gibberish_mash : is_gibberish (tx "sljgf;lsdakjfg") = true := by decide

theorem sanity_gibberish_sentence :
    is_gibberish (tx "I think it forms a tumor mass") = false := by decide

theorem sanity_parse_subpart_lines :
    parse_qa_lines [tx "1. Stem", tx "a) one", tx "b) two", tx "cont"] =
      [{ q := tx "1. Stem", parts := [tx "a) one", tx "b) two cont"] }] := by decide

theorem sanity_variant_lookup :
    concept_hit (tx "malignant") (tx "it can spread to other tissue")
      (some (tx "cancer")) = true := by decide

theorem sanity_missing_required :
    (evaluate_concepts
      [(tx "1a",
        { dict_nonempty := true, concept_domain := some (tx "cancer"),
          required_concepts := [tx "benign", tx "malignant"], optional_concepts := [],
          followups := [], encouragement := [], uncertainty_followup := none,
          wrong_triggers := [] })]
      0 (tx "benign") (some 0) (some (tx ""))).1 = [tx "malignant"] := by decide

end Tutor
